import Mathlib

/-!
# Verification of the infracost `output` command

Shallow embedding of `cmd/infracost/main.go` (the `output` command: version
gating, field projection, renderer selection and the input-processing loop)
together with the parts of `golang.org/x/mod/semver` that
`checkOutputVersion` relies on.  Strings are handled as `List Char` at the
byte level, matching Go's byte-wise string operations (all characters the
program compares are ASCII).
-/

namespace Infracost

/-! ## The `golang.org/x/mod/semver` package (the parts used by `semver.Compare`) -/

/-- Go `'0' <= c && c <= '9'`. -/
def isDigitChar (c : Char) : Bool := decide ('0' ≤ c) && decide (c ≤ '9')

/-- Embeds `semver.parseInt`: takes the maximal leading run of digits,
rejecting an empty run and a leading zero on a multi-digit run.
Returns the digit token and the rest of the input. -/
def parseIntGo (v : List Char) : Option (List Char × List Char) :=
  match v.takeWhile isDigitChar, v.dropWhile isDigitChar with
  | [], _ => none
  | d :: ds, rest => if d = '0' && !ds.isEmpty then none else some (d :: ds, rest)

/-- Go `isIdentChar`: ASCII letters, digits and `-`. -/
def isIdentChar (c : Char) : Bool :=
  (decide ('A' ≤ c) && decide (c ≤ 'Z')) ||
  (decide ('a' ≤ c) && decide (c ≤ 'z')) ||
  (decide ('0' ≤ c) && decide (c ≤ '9')) ||
  decide (c = '-')

/-- Go `isNum`: every character is a digit (the empty string counts as numeric). -/
def isNumGo (v : List Char) : Bool := v.all isDigitChar

/-- Go `isBadNum`: a numeric token longer than one character with a leading zero. -/
def isBadNum (v : List Char) : Bool :=
  isNumGo v && !(decide (v.length = 1) || !(decide (v.headD ' ' = '0')))

/-- Embeds `semver.parsePrerelease`: the input must start with `-`; the body
(up to the first `+`) may contain identifier characters and dots, and every
dot-separated segment must be nonempty and not a bad number.  Returns the
prerelease token (with its `-`) and the rest of the input. -/
def parsePrerelease (v : List Char) : Option (List Char × List Char) :=
  match v with
  | '-' :: tail =>
    let body := tail.takeWhile (fun c => !decide (c = '+'))
    let rest := tail.dropWhile (fun c => !decide (c = '+'))
    if body.all (fun c => isIdentChar c || decide (c = '.')) &&
       (body.splitOn '.').all (fun seg => !seg.isEmpty && !isBadNum seg) then
      some ('-' :: body, rest)
    else
      none
  | _ => none

/-- Embeds `semver.parseBuild`: the input must start with `+`; the body runs to
the end of the input, may contain identifier characters and dots, and every
dot-separated segment must be nonempty. -/
def parseBuild (v : List Char) : Option (List Char × List Char) :=
  match v with
  | '+' :: tail =>
    if tail.all (fun c => isIdentChar c || decide (c = '.')) &&
       (tail.splitOn '.').all (fun seg => !seg.isEmpty) then
      some ('+' :: tail, [])
    else
      none
  | _ => none

/-- The fields of Go's `semver.parsed` struct that `Compare` reads. -/
structure Parsed where
  major : List Char
  minor : List Char
  patch : List Char
  prerelease : List Char
  build : List Char
deriving DecidableEq, Repr

/-- Parses the optional `-prerelease` and `+build` suffixes and requires the
remainder to be empty, as in the tail of `semver.parse`. -/
def parseSuffixes (major minor patch : List Char) (v : List Char) : Option Parsed :=
  match v with
  | '-' :: _ =>
    match parsePrerelease v with
    | none => none
    | some (pre, v1) =>
      match v1 with
      | '+' :: _ =>
        match parseBuild v1 with
        | none => none
        | some (bld, v2) => if v2.isEmpty then some ⟨major, minor, patch, pre, bld⟩ else none
      | [] => some ⟨major, minor, patch, pre, []⟩
      | _ => none
  | '+' :: _ =>
    match parseBuild v with
    | none => none
    | some (bld, v2) => if v2.isEmpty then some ⟨major, minor, patch, [], bld⟩ else none
  | [] => some ⟨major, minor, patch, [], []⟩
  | _ => none

/-- Embeds `semver.parse`: a leading `v`, then `major[.minor[.patch]]` with the
shorthand forms defaulting minor and patch to `0`, then optional prerelease and
build parts. -/
def parseGo (v : List Char) : Option Parsed :=
  match v with
  | 'v' :: r0 =>
    match parseIntGo r0 with
    | none => none
    | some (major, r1) =>
      match r1 with
      | [] => some ⟨major, ['0'], ['0'], [], []⟩
      | '.' :: r2 =>
        match parseIntGo r2 with
        | none => none
        | some (minor, r3) =>
          match r3 with
          | [] => some ⟨major, minor, ['0'], [], []⟩
          | '.' :: r4 =>
            match parseIntGo r4 with
            | none => none
            | some (patch, r5) => parseSuffixes major minor patch r5
          | _ => none
      | _ => none
  | _ => none

/-- Go byte-wise string ordering `x < y`, on the character lists. -/
def charsLt : List Char → List Char → Bool
  | [], [] => false
  | [], _ :: _ => true
  | _ :: _, [] => false
  | a :: as, b :: bs => if a < b then true else if b < a then false else charsLt as bs

/-- Embeds `semver.compareInt`: equal strings are equal; otherwise the shorter
decimal token is smaller, and tokens of equal length compare byte-wise. -/
def compareIntGo (x y : List Char) : Int :=
  if x = y then 0
  else if x.length < y.length then -1
  else if y.length < x.length then 1
  else if charsLt x y then -1 else 1

/-- Go `nextIdent`: the part of a prerelease before the next dot. -/
def identOf (x : List Char) : List Char := x.takeWhile (fun c => !decide (c = '.'))

/-- Go `nextIdent`: the rest of a prerelease from the next dot on. -/
def restAfterIdent (x : List Char) : List Char := x.dropWhile (fun c => !decide (c = '.'))

/-- The branch of `semver.comparePrerelease` taken when two corresponding
dot-separated identifiers differ: numeric identifiers sort below alphanumeric
ones, numeric identifiers compare by length then byte-wise, and alphanumeric
identifiers compare byte-wise. -/
def compareIdent (dx dy : List Char) : Int :=
  if isNumGo dx ≠ isNumGo dy then (if isNumGo dx then -1 else 1)
  else if isNumGo dx && dx.length < dy.length then -1
  else if isNumGo dx && dy.length < dx.length then 1
  else if charsLt dx dy then -1 else 1

/-- The loop of `semver.comparePrerelease`: both strings start with `-` (or a
dot once inside the loop); each round strips the separator, splits off the next
dot-separated identifier from each side, and either decides on the first
differing pair or recurses; the side that runs out first is smaller. -/
def cprLoop : List Char → List Char → Int
  | [], _ => -1
  | _ :: _, [] => 1
  | _ :: xt, _ :: yt =>
    if identOf xt = identOf yt then cprLoop (restAfterIdent xt) (restAfterIdent yt)
    else compareIdent (identOf xt) (identOf yt)
termination_by x _ => x.length
decreasing_by
  simp_wf
  simp only [restAfterIdent]
  exact Nat.lt_succ_of_le (List.dropWhile_sublist _).length_le

/-- Embeds `semver.comparePrerelease`: equal prereleases are equal, the empty
prerelease sorts above any nonempty one, and otherwise `cprLoop` decides. -/
def comparePrerelease (x y : List Char) : Int :=
  if x = y then 0
  else if x = [] then 1
  else if y = [] then -1
  else cprLoop x y

/-- Embeds `semver.Compare` on character lists: an invalid version sorts below
every valid one and invalid versions compare equal; valid versions compare by
major, minor, patch and then prerelease (build metadata is ignored). -/
def semverCompareL (v w : List Char) : Int :=
  match parseGo v, parseGo w with
  | none, none => 0
  | none, some _ => -1
  | some _, none => 1
  | some pv, some pw =>
    if compareIntGo pv.major pw.major ≠ 0 then compareIntGo pv.major pw.major
    else if compareIntGo pv.minor pw.minor ≠ 0 then compareIntGo pv.minor pw.minor
    else if compareIntGo pv.patch pw.patch ≠ 0 then compareIntGo pv.patch pw.patch
    else comparePrerelease pv.prerelease pw.prerelease

/-- `semver.Compare` on strings. -/
def semverCompare (v w : String) : Int := semverCompareL v.toList w.toList

/-! ## The `output` command (`cmd/infracost/main.go`, second part of the file) -/

/-- `var minOutputVersion = "0.1"`. -/
def minOutputVersion : String := "0.1"

/-- `var maxOutputVersion = "0.1"`. -/
def maxOutputVersion : String := "0.1"

/-- The `v`-prefixing step of `checkOutputVersion`: `strings.HasPrefix(v, "v")`
prepends nothing when the first byte is already `v`, otherwise `"v" + v`. -/
def normalizeVersion (v : String) : List Char :=
  match v.toList with
  | 'v' :: rest => 'v' :: rest
  | l => 'v' :: l

/-- Embeds `checkOutputVersion`: normalize the `v` prefix, then
`semver.Compare(v, "v"+minOutputVersion) >= 0 && semver.Compare(v, "v"+maxOutputVersion) <= 0`. -/
def checkOutputVersion (v : String) : Bool :=
  decide (0 ≤ semverCompareL (normalizeVersion v) ('v' :: minOutputVersion.toList)) &&
  decide (semverCompareL (normalizeVersion v) ('v' :: maxOutputVersion.toList) ≤ 0)

/-- Embeds `contains(arr, e)` from `main.go`. -/
def containsGo (arr : List String) (e : String) : Bool :=
  match arr with
  | [] => false
  | a :: rest => if a = e then true else containsGo rest e

/-- `validFields` from the `output` command. -/
def validFields : List String := ["price", "monthlyQuantity", "unit", "hourlyCost", "monthlyCost"]

/-- The initial value of `fields` in the `output` command, which is also the
default value of the `--fields` flag. -/
def fieldsDefault : List String := ["monthlyQuantity", "unit", "monthlyCost"]

/-- The warning printed when `--fields` is supplied but empty; `%s` is the
flag's `DefValue`, which pflag renders as `[monthlyQuantity,unit,monthlyCost]`. -/
def emptyFieldsWarning : String :=
  "fields is empty, using defaults: [monthlyQuantity,unit,monthlyCost]"

/-- The warning printed for one invalid `--fields` entry; the second `%s` is
how Go fmt renders the `validFields` slice. -/
def invalidFieldWarning (f : String) : String :=
  "Invalid field \x27" ++ f ++ "\x27 specified, valid fields are: [price monthlyQuantity unit hourlyCost monthlyCost]"

/-- The warning printed when `--fields` is supplied together with a non-table
`--format`. -/
def fieldsOnlyTableWarning : String :=
  "fields is only supported for table output format (HTML support coming soon)"

/-- The usage error printed when the `--path` flag is absent (colour markup of
`ui.PrimaryString` omitted). -/
def noPathMsg : String :=
  "No path specified\n\nUse the --path flag to specify the path to an Infracost JSON file."

/-- The fatal error for an out-of-range document version. -/
def versionErrMsg : String :=
  "Invalid Infracost JSON file version. Supported versions are " ++ minOutputVersion ++
  " ≤ x ≤ " ++ maxOutputVersion

/-- What the external loader does with one resolved input file: `ioutil.ReadFile`
fails, or `output.Load` fails, or it yields a document whose root carries a
`version` string.  The error strings are the messages of the underlying errors. -/
inductive FileEntry
  | readErr (errMsg : String)
  | parseErr (errMsg : String)
  | doc (filename : String) (version : String)
deriving DecidableEq, Repr

/-- `output.ReportInput` as the `output` command builds it: the metadata map
`{"filename": f}` together with the loaded root document (of which the command
itself only inspects `Version`). -/
structure ReportInput where
  filename : String
  version : String
deriving DecidableEq, Repr

/-- `output.Options` as the `output` command builds it. -/
structure Options where
  noColor : Bool
  groupKey : String
  groupLabel : String
  fields : List String
  showSkipped : Bool
deriving DecidableEq, Repr

/-- The renderer chosen by the `switch strings.ToLower(format)` statement. -/
inductive RendererKind
  | json
  | html
  | diff
  | table
deriving DecidableEq, Repr

/-- How the `output` command run can end: `ui.PrintUsageErrorAndExit`, a
returned error (printed by the CLI error handler, nothing rendered), or a
successful render in which the selected renderer consumed the combined report
built from `inputs` with options `opts` and its bytes were printed. -/
inductive Outcome
  | usageError (msg : String)
  | cmdError (msg : String)
  | rendered (r : RendererKind) (opts : Options) (inputs : List ReportInput)
deriving DecidableEq, Repr

/-- A run of the `output` command: the warnings printed (in order) and how it
ended. -/
structure RunResult where
  warnings : List String
  outcome : Outcome
deriving DecidableEq, Repr

/-- The input-reading loop of the `output` command: files are visited in
resolved order; a read error, parse error or version-gate failure aborts with
the corresponding error, otherwise a `ReportInput` tagged with the filename is
appended. -/
def processInputs : List FileEntry → Except String (List ReportInput)
  | [] => .ok []
  | .readErr m :: _ => .error ("Error reading JSON file: " ++ m)
  | .parseErr m :: _ => .error ("Error parsing JSON file: " ++ m)
  | .doc n v :: rest =>
    if checkOutputVersion v then
      match processInputs rest with
      | .error e => .error e
      | .ok is => .ok (⟨n, v⟩ :: is)
    else
      .error versionErrMsg

/-- The `fields` block of the `output` command: when the flag was not supplied
the default list is used with no warnings; when it was supplied empty a warning
is printed and the default list kept; otherwise the supplied list is used
as-is, with one warning per entry missing from `validFields`. -/
def fieldsAndWarnings (fieldsChanged : Bool) (arg : List String) : List String × List String :=
  if fieldsChanged then
    if arg.length = 0 then
      (fieldsDefault, [emptyFieldsWarning])
    else
      (arg, (arg.filter (fun f => !containsGo validFields f)).map invalidFieldWarning)
  else
    (fieldsDefault, [])

/-- Lowercasing as applied by `strings.ToLower` to the format string; the
formats compared against are all ASCII, where Go and `Char.toLower` agree. -/
def toLowerAscii (s : String) : String := String.mk (s.toList.map Char.toLower)

/-- The `switch strings.ToLower(format)` statement selecting the renderer. -/
def selectRenderer (format : String) : RendererKind :=
  match toLowerAscii format with
  | "json" => .json
  | "html" => .html
  | "diff" => .diff
  | _ => .table

/-- The body of the `output` command (its `RunE`), over the externally
determined inputs: whether `--path` was supplied, the files the glob patterns
resolved to (in order) as seen by the loader, the `--format` value, whether
`--fields` was supplied and with what value, and `--show-skipped`. -/
def outputRun (noColor : Bool) (pathChanged : Bool) (resolvedFiles : List FileEntry)
    (format : String) (fieldsChanged : Bool) (fieldsArg : List String)
    (showSkipped : Bool) : RunResult :=
  if !pathChanged then
    ⟨[], .usageError noPathMsg⟩
  else
    match processInputs resolvedFiles with
    | .error e => ⟨[], .cmdError e⟩
    | .ok inputs =>
      let fw := fieldsAndWarnings fieldsChanged fieldsArg
      let opts : Options :=
        ⟨noColor, "filename", "File", fw.1, showSkipped⟩
      let tw := if fieldsChanged && (format != "table") then [fieldsOnlyTableWarning] else []
      ⟨fw.2 ++ tw, .rendered (selectRenderer format) opts inputs⟩

/-- An entry whose read and parse both succeed, i.e. one that reaches the
version gate as a document. -/
def FileEntry.isDoc : FileEntry → Bool
  | .doc _ _ => true
  | _ => false

/-- An entry the input loop accepts: a loaded document whose version passes the
version gate. -/
def FileEntry.okDoc : FileEntry → Bool
  | .doc _ v => checkOutputVersion v
  | _ => false

/-- The `ReportInput` the loop builds for an accepted entry (junk value on the
error entries, which never produce one). -/
def entryInput : FileEntry → ReportInput
  | .doc n v => ⟨n, v⟩
  | _ => ⟨"", ""⟩

/-! ## Helper lemmas about the input loop -/

theorem processInputs_ok (files : List FileEntry) (h : ∀ e ∈ files, e.okDoc = true) :
    processInputs files = .ok (files.map entryInput) := by
  induction files with
  | nil => rfl
  | cons a as ih =>
    have ha := h a (List.mem_cons_self a as)
    match a with
    | .readErr m => simp [FileEntry.okDoc] at ha
    | .parseErr m => simp [FileEntry.okDoc] at ha
    | .doc n v =>
      have hv : checkOutputVersion v = true := ha
      simp [processInputs, hv, ih (fun e he => h e (List.mem_cons_of_mem _ he)), entryInput]

theorem processInputs_prefix_error (pre tail : List FileEntry) (e : String)
    (h : ∀ x ∈ pre, x.okDoc = true) (he : processInputs tail = .error e) :
    processInputs (pre ++ tail) = .error e := by
  induction pre with
  | nil => simpa using he
  | cons a as ih =>
    have ha := h a (List.mem_cons_self a as)
    match a with
    | .readErr m => simp [FileEntry.okDoc] at ha
    | .parseErr m => simp [FileEntry.okDoc] at ha
    | .doc n v =>
      have hv : checkOutputVersion v = true := ha
      simp [processInputs, hv, ih (fun x hx => h x (List.mem_cons_of_mem _ hx))]

theorem processInputs_bad_version (files : List FileEntry)
    (hdoc : ∀ x ∈ files, x.isDoc = true)
    (hbad : ∃ x ∈ files, x.okDoc = false) :
    processInputs files = .error versionErrMsg := by
  induction files with
  | nil => simp at hbad
  | cons a as ih =>
    have ha := hdoc a (List.mem_cons_self a as)
    match a with
    | .readErr m => simp [FileEntry.isDoc] at ha
    | .parseErr m => simp [FileEntry.isDoc] at ha
    | .doc n v =>
      by_cases hv : checkOutputVersion v = true
      · have hbad' : ∃ x ∈ as, x.okDoc = false := by
          rcases hbad with ⟨x, hx, hxf⟩
          rcases List.mem_cons.mp hx with rfl | hx'
          · exact absurd hxf (by simp [FileEntry.okDoc, hv])
          · exact ⟨x, hx', hxf⟩
        simp [processInputs, hv,
          ih (fun x hx => hdoc x (List.mem_cons_of_mem _ hx)) hbad']
      · simp [processInputs, hv]

theorem outputRun_all_ok (nc : Bool) (files : List FileEntry) (fmt : String) (fc : Bool)
    (fa : List String) (ss : Bool) (h : ∀ e ∈ files, e.okDoc = true) :
    outputRun nc true files fmt fc fa ss =
      ⟨(fieldsAndWarnings fc fa).2 ++
         (if fc && (fmt != "table") then [fieldsOnlyTableWarning] else []),
       .rendered (selectRenderer fmt)
         ⟨nc, "filename", "File", (fieldsAndWarnings fc fa).1, ss⟩
         (files.map entryInput)⟩ := by
  simp [outputRun, processInputs_ok files h]

theorem fieldsAndWarnings_of_ne (fa : List String) (hne : fa ≠ []) :
    fieldsAndWarnings true fa =
      (fa, (fa.filter (fun f => !containsGo validFields f)).map invalidFieldWarning) := by
  have hlen : ¬ (fa.length = 0) := by simpa [List.length_eq_zero] using hne
  simp [fieldsAndWarnings, hlen]

/-! ## The claims -/

/-- C2 (confirmed): `checkOutputVersion v` holds exactly when `v`, prefixed
with `v` when that prefix is absent, lies in the closed semver range
`["v" ++ minOutputVersion, "v" ++ maxOutputVersion] = ["v0.1", "v0.1"]`; in
particular `"0.1"` and `"v0.1"` are accepted while `"0.0"` and `"0.2"` are
rejected. -/
theorem checkOutputVersion_range :
    (∀ v : String, checkOutputVersion v = true ↔
      (0 ≤ semverCompareL (normalizeVersion v) ('v' :: minOutputVersion.toList) ∧
       semverCompareL (normalizeVersion v) ('v' :: maxOutputVersion.toList) ≤ 0)) ∧
    checkOutputVersion "0.1" = true ∧ checkOutputVersion "v0.1" = true ∧
    checkOutputVersion "0.0" = false ∧ checkOutputVersion "0.2" = false := by
  refine ⟨fun v => ?_, by decide, by decide, by decide, by decide⟩
  simp [checkOutputVersion]

/-- C7 (confirmed): a version string that does not parse as a semantic version
even after `v`-prefix normalization is rejected by `checkOutputVersion` (the
total embedding returns `false`; nothing panics). -/
theorem malformed_version_rejected :
    ∀ v : String, parseGo (normalizeVersion v) = none → checkOutputVersion v = false := by
  intro v h
  have hmin : semverCompareL (normalizeVersion v) ('v' :: minOutputVersion.toList) = -1 := by
    unfold semverCompareL
    rw [h, show parseGo ('v' :: minOutputVersion.toList)
      = some ⟨['0'], ['1'], ['0'], [], []⟩ from by decide]
  have hmin2 : semverCompareL (normalizeVersion v) ('v' :: minOutputVersion.data) = -1 := hmin
  simp [checkOutputVersion, hmin2]

/-- Witness for C7 at the concrete malformed version `"garbage"`. -/
theorem malformed_version_rejected_witness :
    parseGo (normalizeVersion "garbage") = none ∧ checkOutputVersion "garbage" = false :=
  ⟨by decide, malformed_version_rejected "garbage" (by decide)⟩

/-- C3 (confirmed): in a batch in which every file loads as a document, if any
document's version fails the version gate then the run returns the fatal
error naming the supported range, prints no warnings, and renders nothing. -/
theorem bad_version_aborts_batch :
    ∀ (nc : Bool) (files : List FileEntry) (fmt : String) (fc : Bool)
      (fa : List String) (ss : Bool),
      (∀ x ∈ files, x.isDoc = true) →
      (∃ x ∈ files, x.okDoc = false) →
      outputRun nc true files fmt fc fa ss = ⟨[], .cmdError versionErrMsg⟩ := by
  intro nc files fmt fc fa ss hdoc hbad
  simp [outputRun, processInputs_bad_version files hdoc hbad]

/-- Witness for C3: one document of version `"0.2"`. -/
theorem bad_version_aborts_batch_witness :
    outputRun false true [FileEntry.doc "a.json" "0.2"] "table" false [] false
      = ⟨[], .cmdError versionErrMsg⟩ :=
  bad_version_aborts_batch false [FileEntry.doc "a.json" "0.2"] "table" false [] false
    (by decide) ⟨FileEntry.doc "a.json" "0.2", by decide, by decide⟩

/-- C10 (confirmed): with all earlier files accepted, the first file that fails
to read (resp. to parse) aborts the run with the error wrapped as
`Error reading JSON file` (resp. `Error parsing JSON file`), before anything is
combined or rendered and with no output printed. -/
theorem first_read_parse_error_aborts :
    ∀ (nc : Bool) (pre : List FileEntry) (m : String) (rest : List FileEntry)
      (fmt : String) (fc : Bool) (fa : List String) (ss : Bool),
      (∀ x ∈ pre, x.okDoc = true) →
      outputRun nc true (pre ++ FileEntry.readErr m :: rest) fmt fc fa ss
        = ⟨[], .cmdError ("Error reading JSON file: " ++ m)⟩ ∧
      outputRun nc true (pre ++ FileEntry.parseErr m :: rest) fmt fc fa ss
        = ⟨[], .cmdError ("Error parsing JSON file: " ++ m)⟩ := by
  intro nc pre m rest fmt fc fa ss h
  constructor
  · have hp : processInputs (pre ++ FileEntry.readErr m :: rest)
        = .error ("Error reading JSON file: " ++ m) :=
      processInputs_prefix_error pre _ _ h rfl
    simp [outputRun, hp]
  · have hp : processInputs (pre ++ FileEntry.parseErr m :: rest)
        = .error ("Error parsing JSON file: " ++ m) :=
      processInputs_prefix_error pre _ _ h rfl
    simp [outputRun, hp]

/-- Witness for C10: one valid document followed by a failing file. -/
theorem first_read_parse_error_aborts_witness :
    outputRun false true [FileEntry.doc "a.json" "0.1", FileEntry.readErr "boom"]
        "table" false [] false
      = ⟨[], .cmdError ("Error reading JSON file: " ++ "boom")⟩ :=
  (first_read_parse_error_aborts false [FileEntry.doc "a.json" "0.1"] "boom" []
    "table" false [] false (by decide)).1

/-- C1 (counterexample): requesting the invalid field `"bogus"` produces the
warning but the field is NOT excluded — the renderer receives `["bogus"]`,
which is not a subset of `validFields`. -/
theorem invalid_field_passed_through :
    outputRun false true [FileEntry.doc "a.json" "0.1"] "table" true ["bogus"] false
      = ⟨[invalidFieldWarning "bogus"],
         .rendered .table ⟨false, "filename", "File", ["bogus"], false⟩ [⟨"a.json", "0.1"⟩]⟩ ∧
    containsGo validFields "bogus" = false := by
  decide

/-- C1 (amended, confirmed): for an explicitly supplied nonempty field list the
run warns once per identifier missing from `validFields`, but the list handed
to the renderer is the requested list unchanged, in its original order, with
the invalid identifiers still in it. -/
theorem fields_warn_but_not_filtered :
    ∀ (nc : Bool) (files : List FileEntry) (fmt : String) (fa : List String) (ss : Bool),
      (∀ e ∈ files, e.okDoc = true) → fa ≠ [] →
      (outputRun nc true files fmt true fa ss).outcome
        = .rendered (selectRenderer fmt) ⟨nc, "filename", "File", fa, ss⟩
            (files.map entryInput) ∧
      ∀ f ∈ fa, containsGo validFields f = false →
        invalidFieldWarning f ∈ (outputRun nc true files fmt true fa ss).warnings := by
  intro nc files fmt fa ss h hne
  rw [outputRun_all_ok nc files fmt true fa ss h, fieldsAndWarnings_of_ne fa hne]
  refine ⟨rfl, fun f hf hcf => ?_⟩
  exact List.mem_append_left _
    (List.mem_map_of_mem _ (List.mem_filter.mpr ⟨hf, by simp [hcf]⟩))

/-- Witness for the amended C1 at the concrete request `["bogus"]`. -/
theorem fields_warn_but_not_filtered_witness :
    (outputRun false true [] "table" true ["bogus"] false).outcome
      = .rendered .table ⟨false, "filename", "File", ["bogus"], false⟩ [] ∧
    invalidFieldWarning "bogus" ∈ (outputRun false true [] "table" true ["bogus"] false).warnings :=
  have h := fields_warn_but_not_filtered false [] "table" ["bogus"] false
    (by simp) (by decide)
  ⟨h.1, h.2 "bogus" (by decide) (by decide)⟩

/-- C4 (counterexample): with `--path` supplied but every pattern matching zero
files, the command does not error — it renders an empty table report. -/
theorem zero_matches_renders_empty :
    outputRun false true [] "table" false [] false
      = ⟨[], .rendered .table ⟨false, "filename", "File", fieldsDefault, false⟩ []⟩ := by
  decide

/-- C4 (amended, confirmed): when the `--path` flag is absent the run stops
with the usage error naming the missing path and renders nothing; when the flag
is present but resolves to zero files, the run proceeds and renders a report
over zero inputs. -/
theorem missing_path_flag_aborts :
    ∀ (nc : Bool) (files : List FileEntry) (fmt : String) (fc : Bool)
      (fa : List String) (ss : Bool),
      outputRun nc false files fmt fc fa ss = ⟨[], .usageError noPathMsg⟩ ∧
      outputRun nc true [] fmt fc fa ss =
        ⟨(fieldsAndWarnings fc fa).2 ++
           (if fc && (fmt != "table") then [fieldsOnlyTableWarning] else []),
         .rendered (selectRenderer fmt)
           ⟨nc, "filename", "File", (fieldsAndWarnings fc fa).1, ss⟩ []⟩ := by
  intro nc files fmt fc fa ss
  exact ⟨rfl, by simpa using outputRun_all_ok nc [] fmt fc fa ss (by simp)⟩

/-- C5 (confirmed): an explicitly empty `--fields` list draws the
empty-fields warning and the default field set is rendered; an absent
`--fields` flag renders the default field set with no warning at all. -/
theorem empty_fields_defaults :
    ∀ (nc : Bool) (files : List FileEntry) (fmt : String) (ss : Bool),
      (∀ e ∈ files, e.okDoc = true) →
      ((outputRun nc true files fmt true [] ss).outcome
          = .rendered (selectRenderer fmt) ⟨nc, "filename", "File", fieldsDefault, ss⟩
              (files.map entryInput) ∧
        emptyFieldsWarning ∈ (outputRun nc true files fmt true [] ss).warnings) ∧
      outputRun nc true files fmt false [] ss
        = ⟨[], .rendered (selectRenderer fmt) ⟨nc, "filename", "File", fieldsDefault, ss⟩
            (files.map entryInput)⟩ := by
  intro nc files fmt ss h
  refine ⟨?_, ?_⟩
  · rw [outputRun_all_ok nc files fmt true [] ss h]
    exact ⟨rfl, by simp [fieldsAndWarnings]⟩
  · rw [outputRun_all_ok nc files fmt false [] ss h]
    simp [fieldsAndWarnings]

/-- Witness for C5 at a concrete one-document batch. -/
theorem empty_fields_defaults_witness :
    ((outputRun false true [FileEntry.doc "a.json" "0.1"] "table" true [] false).outcome
        = .rendered .table ⟨false, "filename", "File", fieldsDefault, false⟩
            [⟨"a.json", "0.1"⟩] ∧
      emptyFieldsWarning
        ∈ (outputRun false true [FileEntry.doc "a.json" "0.1"] "table" true [] false).warnings) ∧
    outputRun false true [FileEntry.doc "a.json" "0.1"] "table" false [] false
      = ⟨[], .rendered .table ⟨false, "filename", "File", fieldsDefault, false⟩
          [⟨"a.json", "0.1"⟩]⟩ :=
  empty_fields_defaults false [FileEntry.doc "a.json" "0.1"] "table" false (by decide)

/-- C6 (counterexample): the format string `"JSON"` differs from `"json"`,
`"html"` and `"diff"`, yet it selects the JSON renderer, not the Table one. -/
theorem uppercase_json_not_table :
    selectRenderer "JSON" = RendererKind.json ∧ RendererKind.json ≠ RendererKind.table := by
  decide

/-- C6 (amended, confirmed): the renderer is determined by the lowercased
format identifier — lowercased `"json"`, `"html"` and `"diff"` select their
renderers, and every other lowercased value, including the default `"table"`,
selects the Table renderer. -/
theorem renderer_by_lowercased_format :
    (∀ f g : String, toLowerAscii f = toLowerAscii g → selectRenderer f = selectRenderer g) ∧
    selectRenderer "json" = RendererKind.json ∧
    selectRenderer "html" = RendererKind.html ∧
    selectRenderer "diff" = RendererKind.diff ∧
    selectRenderer "table" = RendererKind.table ∧
    selectRenderer "JSON" = RendererKind.json ∧
    (∀ f : String, toLowerAscii f ≠ "json" → toLowerAscii f ≠ "html" →
      toLowerAscii f ≠ "diff" → selectRenderer f = RendererKind.table) := by
  refine ⟨fun f g h => by simp [selectRenderer, h], by decide, by decide, by decide,
    by decide, by decide, fun f h1 h2 h3 => ?_⟩
  unfold selectRenderer
  split <;> simp_all

/-- Witness for the amended C6: `"TABLE"` lowers to `"table"`, and the
unrecognized identifier `"bogus"` falls back to the Table renderer. -/
theorem renderer_by_lowercased_format_witness :
    selectRenderer "TABLE" = selectRenderer "table" ∧
    selectRenderer "bogus" = RendererKind.table :=
  ⟨renderer_by_lowercased_format.1 "TABLE" "table" (by decide),
   renderer_by_lowercased_format.2.2.2.2.2.2 "bogus" (by decide) (by decide) (by decide)⟩

/-- C8 (confirmed): when `--fields` was supplied and the raw format string is
not `"table"`, the run prints the fields-only-for-table warning and still
renders with the renderer selected by the format string. -/
theorem fields_warning_non_table :
    ∀ (nc : Bool) (files : List FileEntry) (fmt : String) (fa : List String) (ss : Bool),
      (∀ e ∈ files, e.okDoc = true) → fmt ≠ "table" →
      fieldsOnlyTableWarning ∈ (outputRun nc true files fmt true fa ss).warnings ∧
      (outputRun nc true files fmt true fa ss).outcome
        = .rendered (selectRenderer fmt)
            ⟨nc, "filename", "File", (fieldsAndWarnings true fa).1, ss⟩
            (files.map entryInput) := by
  intro nc files fmt fa ss h hfmt
  rw [outputRun_all_ok nc files fmt true fa ss h]
  refine ⟨?_, rfl⟩
  have hbne : (fmt != "table") = true := by simp [hfmt]
  simp [hbne]

/-- Witness for C8: fields supplied with the `"json"` format. -/
theorem fields_warning_non_table_witness :
    fieldsOnlyTableWarning
      ∈ (outputRun false true [FileEntry.doc "a.json" "0.1"] "json" true ["price"] false).warnings ∧
    (outputRun false true [FileEntry.doc "a.json" "0.1"] "json" true ["price"] false).outcome
      = .rendered RendererKind.json
          ⟨false, "filename", "File", (fieldsAndWarnings true ["price"]).1, false⟩
          [⟨"a.json", "0.1"⟩] :=
  fields_warning_non_table false [FileEntry.doc "a.json" "0.1"] "json" ["price"] false
    (by decide) (by decide)

/-- C9 (confirmed): renderer selection is a function of the lowercased format
string (`"JSON"` and `"json"` both select the JSON renderer), while the
fields-only-for-table warning tests the raw string against `"table"`:
with fields supplied, the warning appears exactly when the raw format string
differs from `"table"`, so `"TABLE"` draws the warning even though it selects
the Table renderer. -/
theorem renderer_lowercased_warning_raw :
    (∀ f g : String, toLowerAscii f = toLowerAscii g → selectRenderer f = selectRenderer g) ∧
    selectRenderer "JSON" = RendererKind.json ∧
    selectRenderer "json" = RendererKind.json ∧
    (∀ (nc : Bool) (fmt : String) (ss : Bool),
      fieldsOnlyTableWarning ∈ (outputRun nc true [] fmt true ["price"] ss).warnings
        ↔ fmt ≠ "table") ∧
    (∀ (nc ss : Bool),
      (outputRun nc true [] "TABLE" true ["price"] ss).outcome
          = .rendered RendererKind.table ⟨nc, "filename", "File", ["price"], ss⟩ [] ∧
      fieldsOnlyTableWarning ∈ (outputRun nc true [] "TABLE" true ["price"] ss).warnings) := by
  have hfw : fieldsAndWarnings true ["price"] = (["price"], []) := by decide
  have hrun : ∀ (nc : Bool) (fmt : String) (ss : Bool),
      outputRun nc true [] fmt true ["price"] ss =
        ⟨if (fmt != "table") then [fieldsOnlyTableWarning] else [],
         .rendered (selectRenderer fmt) ⟨nc, "filename", "File", ["price"], ss⟩ []⟩ := by
    intro nc fmt ss
    rw [outputRun_all_ok nc [] fmt true ["price"] ss (by simp), hfw]
    simp
  refine ⟨fun f g h => by simp [selectRenderer, h], by decide, by decide, ?_, ?_⟩
  · intro nc fmt ss
    rw [hrun nc fmt ss]
    by_cases hfmt : fmt = "table" <;> simp [hfmt]
  · intro nc ss
    rw [hrun nc "TABLE" ss]
    exact ⟨by rw [show selectRenderer "TABLE" = RendererKind.table from by decide],
      by simp⟩

/-- Witness for C9: `"Diff"` and `"diff"` select the same renderer, and the
warning fires for the `"HTML"` format when fields are supplied. -/
theorem renderer_lowercased_warning_raw_witness :
    selectRenderer "Diff" = selectRenderer "diff" ∧
    fieldsOnlyTableWarning
      ∈ (outputRun false true [] "HTML" true ["price"] false).warnings :=
  ⟨renderer_lowercased_warning_raw.1 "Diff" "diff" (by decide),
   (renderer_lowercased_warning_raw.2.2.2.1 false "HTML" false).mpr (by decide)⟩

end Infracost
